import Mathlib

/-!
Shallow embedding of the HasText client (Room.tsx and Dashboard.tsx):
the room row type, JS string truthiness, a model of `Date.parse` on the
ISO-8601 UTC strings the client reads and writes, the `isNewer` recency
guard, the realtime UPDATE callback, `handleSave`, `loadRoom`, and the
dashboard's `handleJoinRoom` / `generateRoomCode`.
-/

namespace HasText

/-- A row of the `rooms` table as the client receives it (`RoomRow` in
Room.tsx).  `Option String` models `string | null`. -/
structure RoomRow where
  id : String
  code : String
  name : Option String
  content : Option String
  editor_email : Option String
  updated_at : Option String
deriving DecidableEq

/-- JavaScript truthiness of a `string | null | undefined` value:
`null`, `undefined` and `""` are falsy, every other string is truthy. -/
def truthy : Option String → Bool
  | none => false
  | some s => s != ""

/-- Numeric value of a decimal digit character, `none` otherwise. -/
def digit? (c : Char) : Option Nat :=
  if c.isDigit then some (c.toNat - 48) else none

/-- Decimal value of a digit string; `none` if any character is not a digit. -/
def digitsVal? (cs : List Char) : Option Nat :=
  cs.foldl (fun acc c => do
    let a ← acc
    let d ← digit? c
    pure (a * 10 + d)) (some 0)

/-- Gregorian leap-year test. -/
def isLeap (y : Nat) : Bool :=
  (y % 4 == 0 && y % 100 != 0) || y % 400 == 0

/-- Days in month `m` (1-12) of year `y`. -/
def daysInMonth (y m : Nat) : Nat :=
  if m = 2 then (if isLeap y then 29 else 28)
  else if m = 4 ∨ m = 6 ∨ m = 9 ∨ m = 11 then 30
  else 31

/-- Days in the proleptic Gregorian years `0, 1, ..., y - 1`. -/
def daysBeforeYear (y : Nat) : Nat :=
  365 * y + (y + 3) / 4 - (y + 99) / 100 + (y + 399) / 400

/-- Days in the months of year `y` strictly before month `m`. -/
def daysBeforeMonth (y m : Nat) : Nat :=
  (List.range (m - 1)).foldl (fun acc i => acc + daysInMonth y (i + 1)) 0

/-- Milliseconds from 0000-01-01T00:00:00Z to the given civil instant. -/
def epochMillis (y m d hh mi ss ms : Nat) : Nat :=
  (daysBeforeYear y + daysBeforeMonth y m + (d - 1)) * 86400000
    + hh * 3600000 + mi * 60000 + ss * 1000 + ms

/-- Range validity of a civil date as `Date.parse` enforces it. -/
def validDate (y m d : Nat) : Bool :=
  1 ≤ m && m ≤ 12 && 1 ≤ d && d ≤ daysInMonth y m

/-- Range validity of a time of day as `Date.parse` enforces it. -/
def validTime (hh mi ss : Nat) : Bool :=
  hh ≤ 23 && mi ≤ 59 && ss ≤ 59

/-- Model of JS `Date.parse` restricted to the ISO-8601 UTC forms this
client reads and writes (`YYYY-MM-DD`, `YYYY-MM-DDTHH:MM:SSZ`,
`YYYY-MM-DDTHH:MM:SS.mmmZ`, the last being the `toISOString` output it
stores).  Returns milliseconds measured from year 0, which is
order-isomorphic to the JS epoch value on this range; `none` models `NaN`
(any other string, or an out-of-range field). -/
def dateParse (s : String) : Option Nat :=
  match s.toList with
  | [y1, y2, y3, y4, '-', m1, m2, '-', d1, d2] => do
      let y ← digitsVal? [y1, y2, y3, y4]
      let m ← digitsVal? [m1, m2]
      let d ← digitsVal? [d1, d2]
      if validDate y m d then pure (epochMillis y m d 0 0 0 0) else none
  | [y1, y2, y3, y4, '-', m1, m2, '-', d1, d2, 'T',
     h1, h2, ':', n1, n2, ':', s1, s2, 'Z'] => do
      let y ← digitsVal? [y1, y2, y3, y4]
      let m ← digitsVal? [m1, m2]
      let d ← digitsVal? [d1, d2]
      let hh ← digitsVal? [h1, h2]
      let mi ← digitsVal? [n1, n2]
      let ss ← digitsVal? [s1, s2]
      if validDate y m d && validTime hh mi ss then
        pure (epochMillis y m d hh mi ss 0)
      else none
  | [y1, y2, y3, y4, '-', m1, m2, '-', d1, d2, 'T',
     h1, h2, ':', n1, n2, ':', s1, s2, '.', f1, f2, f3, 'Z'] => do
      let y ← digitsVal? [y1, y2, y3, y4]
      let m ← digitsVal? [m1, m2]
      let d ← digitsVal? [d1, d2]
      let hh ← digitsVal? [h1, h2]
      let mi ← digitsVal? [n1, n2]
      let ss ← digitsVal? [s1, s2]
      let ms ← digitsVal? [f1, f2, f3]
      if validDate y m d && validTime hh mi ss then
        pure (epochMillis y m d hh mi ss ms)
      else none
  | _ => none

/-- `isNewer(a, b)` from Room.tsx: true when timestamp `a` is strictly newer
than `b`.  JS-falsy values (null/undefined/empty) are treated as absent, and
when both sides are truthy but either fails to parse the code falls back to
`!!a && !b`. -/
def isNewer (a b : Option String) : Bool :=
  if !truthy a && !truthy b then false
  else if truthy a && !truthy b then true
  else if !truthy a && truthy b then false
  else
    match dateParse (a.getD ""), dateParse (b.getD "") with
    | some da, some db => da > db
    | _, _ => truthy a && !truthy b

/-- The Room component's local state: the `content` buffer, the
`lastAppliedAtRef` watermark, the `roomData` row, and the UI flags. -/
structure EditorState where
  roomData : Option RoomRow
  content : String
  lastAppliedAt : Option String
  loading : Bool
  isSaving : Bool
deriving DecidableEq

/-- The authenticated user as the client sees it (`user.id`, `user.email`). -/
structure User where
  id : String
  email : Option String
deriving DecidableEq

/-- A toast notification; `isError` models `variant: "destructive"`. -/
structure Toast where
  title : String
  isError : Bool
deriving DecidableEq

/-- The `isSelfUpdate` test of the realtime UPDATE callback in Room.tsx:
`myEmailRef.current && next.editor_email && next.editor_email === myEmailRef.current`,
with JS `&&` semantics (any falsy operand makes the whole test falsy). -/
def isSelfUpdate (myEmail : Option String) (next : RoomRow) : Bool :=
  truthy myEmail && truthy next.editor_email && next.editor_email == myEmail

/-- The realtime UPDATE callback of Room.tsx applied to one `payload.new`
row.  A self-update merges metadata only: the watermark advances when the
event is newer and `setRoomData(prev => ({...prev, ...next}))` yields `next`
since the payload row carries every field; the content buffer is untouched.
A non-self update is applied (content, watermark, row) only when strictly
newer than the watermark, and is otherwise discarded. -/
def onRemoteUpdate (myEmail : Option String) (s : EditorState) (next : RoomRow) :
    EditorState :=
  if isSelfUpdate myEmail next then
    { s with
      lastAppliedAt :=
        if isNewer next.updated_at s.lastAppliedAt then next.updated_at
        else s.lastAppliedAt,
      roomData := some next }
  else if !isNewer next.updated_at s.lastAppliedAt then s
  else
    { s with
      lastAppliedAt := next.updated_at,
      roomData := some next,
      content := next.content.getD "" }

/-- The row fields `handleSave` writes to the store. -/
structure SaveWrite where
  content : String
  editor_email : Option String
  updated_at : String
deriving DecidableEq

/-- `handleSave` from Room.tsx.  `ok` abstracts the store call's outcome and
`nowIso` is `new Date().toISOString()`.  Returns the state after the handler
(the transient `isSaving := true` is reverted by the `finally` block), the
emitted toasts, and the write that reached the store, if any.  On success the
watermark is set to `nowIso`; on failure nothing but `isSaving` changes. -/
def handleSave (user : Option User) (roomCode : Option String) (nowIso : String)
    (ok : Bool) (s : EditorState) : EditorState × List Toast × Option SaveWrite :=
  match user with
  | none => (s, [], none)
  | some u =>
    if !truthy roomCode then (s, [], none)
    else if ok then
      ({ s with lastAppliedAt := some nowIso, isSaving := false },
       [⟨"Saved successfully", false⟩], some ⟨s.content, u.email, nowIso⟩)
    else
      ({ s with isSaving := false }, [⟨"Save failed", true⟩], none)

/-- Outcome of the single store query `loadRoom` issues: a row, the
PGRST116 "no row" outcome, or any other error (thrown and caught). -/
inductive LoadOutcome
  | found (room : RoomRow)
  | notFound
  | failure
deriving DecidableEq

/-- `loadRoom` from Room.tsx (one invocation, no retry).  Returns the new
state, the emitted toasts, and the navigation target, if any.  On a found row
the watermark ref is set unconditionally from the row (even when unmounted),
while `roomData`/`content`/`loading` are set only when mounted; on a missing
row or a failure the handler toasts, navigates to the dashboard, and the
`finally` block clears `loading` when mounted. -/
def loadRoom (user : Option User) (outcome : LoadOutcome) (isMounted : Bool)
    (s : EditorState) : EditorState × List Toast × Option String :=
  match user with
  | none => (s, [], none)
  | some _ =>
    match outcome with
    | .found room =>
        let s1 := { s with lastAppliedAt := room.updated_at }
        let s2 :=
          if isMounted then
            { s1 with roomData := some room, content := room.content.getD "" }
          else s1
        (if isMounted then { s2 with loading := false } else s2, [], none)
    | .notFound =>
        (if isMounted then { s with loading := false } else s,
         [⟨"Room not found", true⟩], some "/dashboard")
    | .failure =>
        (if isMounted then { s with loading := false } else s,
         [⟨"Error", true⟩], some "/dashboard")

/-- Model of JS `String.prototype.trim`: drop whitespace from both ends
(written over the character list so it is kernel-evaluable). -/
def jsTrim (s : String) : String :=
  ⟨((s.data.dropWhile Char.isWhitespace).reverse.dropWhile
      Char.isWhitespace).reverse⟩

/-- Model of JS `String.prototype.toUpperCase` on the character list. -/
def jsToUpper (s : String) : String :=
  ⟨s.data.map Char.toUpper⟩

/-- `handleJoinRoom` from Dashboard.tsx: when the trimmed join code is
truthy, navigate to `/room/` followed by the uppercased (untrimmed) code. -/
def handleJoinRoom (joinCode : String) : Option String :=
  if truthy (some (jsTrim joinCode)) then
    some ("/room/" ++ jsToUpper joinCode)
  else none

/-- Base-36 digit characters as JS `Number.toString(36)` produces them
(decimal digits then lowercase letters). -/
def base36Char (n : Nat) : Char :=
  if n < 10 then Char.ofNat (48 + n) else Char.ofNat (87 + n)

/-- Modelled JS `Math.random().toString(36)` for a value in `[0, 1)`, as a
character list: `"0"` when the fractional expansion is empty, otherwise
`"0."` followed by the base-36 fractional digits. -/
def jsRandomBase36 (digits : List Nat) : List Char :=
  if digits.isEmpty then ['0'] else ['0', '.'] ++ digits.map base36Char

/-- JS `s.substring(2, 8)` on a character list. -/
def jsSubstringTwoEight (cs : List Char) : List Char :=
  (cs.drop 2).take 6

/-- `generateRoomCode` from Dashboard.tsx:
`Math.random().toString(36).substring(2, 8).toUpperCase()`, with the random
number represented by its base-36 fractional digit list. -/
def generateRoomCode (digits : List Nat) : List Char :=
  (jsSubstringTwoEight (jsRandomBase36 digits)).map Char.toUpper

/-- Classification of a timestamp value as the recency guard sees it:
JS-falsy (absent), a parsed time value, or truthy but unparseable. -/
inductive TSClass
  | absent
  | val (v : Nat)
  | bad
deriving DecidableEq

/-- The `TSClass` of an optional timestamp string. -/
def tsClass (a : Option String) : TSClass :=
  if truthy a then
    match dateParse (a.getD "") with
    | some v => .val v
    | none => .bad
  else .absent

/-- Whether an event whose timestamp parses to `v` beats a watermark of the
given class under `isNewer`. -/
def beats (v : Nat) : TSClass → Bool
  | .absent => true
  | .val u => u < v
  | .bad => false

/-- Concrete row used to evaluate theorems: a remote edit with the newer
timestamp. -/
def rowNew : RoomRow :=
  ⟨"id2", "AB12CD", some "room", some "newest text", some "other@x.com",
   some "2024-01-02T00:00:00Z"⟩

/-- Concrete row used to evaluate theorems: a remote edit with the older
timestamp. -/
def rowOld : RoomRow :=
  ⟨"id1", "AB12CD", some "room", some "older text", some "other@x.com",
   some "2024-01-01T00:00:00Z"⟩

/-- Concrete row whose editor identity is null. -/
def rowSelfNull : RoomRow :=
  ⟨"id3", "AB12CD", none, some "text", none, some "2024-01-01T00:00:00Z"⟩

/-- Concrete row: the local user's own edit echoed back by the feed. -/
def rowSelfEcho : RoomRow :=
  ⟨"id4", "AB12CD", some "room", some "other content", some "me@x.com",
   some "2024-01-03T00:00:00Z"⟩

/-- Concrete editor state just after subscribing, before any load. -/
def state0 : EditorState := ⟨none, "", none, true, false⟩

/-- Concrete editor state with a 2024-01-02 watermark and a live buffer. -/
def stateWm : EditorState :=
  ⟨some rowNew, "current buffer", some "2024-01-02T00:00:00Z", false, false⟩

/-- Concrete authenticated user. -/
def user1 : User := ⟨"uid1", some "me@x.com"⟩

end HasText

namespace HasText

/-! Helper lemmas about the recency guard. -/

/-- `isNewer` never counts a timestamp as strictly newer than itself. -/
theorem isNewer_self (a : Option String) : isNewer a a = false := by
  by_cases h : truthy a
  · cases hp : dateParse (a.getD "") <;> simp [isNewer, h, hp]
  · rw [Bool.not_eq_true] at h
    simp [isNewer, h]

/-- When the event timestamp parses to `v`, `isNewer` against any watermark
is exactly `beats v` of the watermark's class. -/
theorem isNewer_eq_beats (a b : Option String) (v : Nat)
    (h : tsClass a = TSClass.val v) :
    isNewer a b = beats v (tsClass b) := by
  unfold tsClass at h
  by_cases hta : truthy a
  · rw [if_pos hta] at h
    cases hpa : dateParse (a.getD "") with
    | none => rw [hpa] at h; exact absurd h (by simp)
    | some u =>
      rw [hpa] at h
      have hv : u = v := by injection h
      subst hv
      unfold isNewer tsClass
      by_cases htb : truthy b
      · rw [if_pos htb]
        cases hpb : dateParse (b.getD "") with
        | none => simp [hta, htb, hpa, hpb, beats]
        | some w => simp [hta, htb, hpa, hpb, beats, Nat.lt_iff_add_one_le]
      · rw [Bool.not_eq_true] at htb
        simp [hta, htb, beats]
  · rw [if_neg hta] at h
    exact absurd h (by simp)

end HasText

namespace HasText

/-- C3: the `isNewer` comparison used by OnRemoteUpdate satisfies the
tie-break policy: absent vs absent is not newer; present vs absent is newer;
absent vs present is not newer (absence being JS falsiness: null, undefined
or empty, as the code tests it); when both parse they compare as time values
with strictly-later meaning newer; when both are present but either side
fails to parse, the result is newer only when exactly one side is a
non-empty string; and the two concrete spec examples hold: against a null
watermark the 2024-01-01 event is newer, and against a 2024-01-02 watermark
it is not. -/
theorem isNewer_contract :
    (∀ a b : Option String, truthy a = false → truthy b = false →
      isNewer a b = false) ∧
    (∀ a b : Option String, truthy a = true → truthy b = false →
      isNewer a b = true) ∧
    (∀ a b : Option String, truthy a = false → truthy b = true →
      isNewer a b = false) ∧
    (∀ (a b : Option String) (da db : Nat), truthy a = true → truthy b = true →
      dateParse (a.getD "") = some da → dateParse (b.getD "") = some db →
      (isNewer a b = true ↔ db < da)) ∧
    (∀ a b : Option String, truthy a = true → truthy b = true →
      (dateParse (a.getD "") = none ∨ dateParse (b.getD "") = none) →
      isNewer a b = true →
      ((a.getD "" ≠ "" ∧ b.getD "" = "") ∨ (a.getD "" = "" ∧ b.getD "" ≠ ""))) ∧
    isNewer (some "2024-01-01T00:00:00Z") none = true ∧
    isNewer (some "2024-01-01T00:00:00Z") (some "2024-01-02T00:00:00Z") = false := by
  refine ⟨?_, ?_, ?_, ?_, ?_, by decide, by decide⟩
  · intro a b ha hb
    simp [isNewer, ha, hb]
  · intro a b ha hb
    simp [isNewer, ha, hb]
  · intro a b ha hb
    simp [isNewer, ha, hb]
  · intro a b da db ha hb hpa hpb
    simp [isNewer, ha, hb, hpa, hpb, Nat.lt_iff_add_one_le]
  · intro a b ha hb hbad htrue
    exfalso
    simp only [isNewer, ha, hb] at htrue
    rcases hbad with h | h
    · rw [h] at htrue
      simp at htrue
    · cases hpa : dateParse (a.getD "") with
      | none => rw [hpa] at htrue; simp at htrue
      | some da => rw [hpa, h] at htrue; simp at htrue

/-- C3 witness: clause two of the contract applied at a concrete present
timestamp against a null watermark. -/
theorem isNewer_contract_witness :
    isNewer (some "2024-05-05T10:00:00Z") none = true :=
  isNewer_contract.2.1 (some "2024-05-05T10:00:00Z") none rfl rfl

/-- C5 counterexample: an event whose editor identity is null, delivered
when the local identity is also null: the identities are equal yet the code
classifies the event as not-self (`null && ...` is falsy). -/
theorem isSelfUpdate_null_counterexample :
    rowSelfNull.editor_email = (none : Option String) ∧
    isSelfUpdate none rowSelfNull = false :=
  ⟨rfl, rfl⟩

/-- C5 (amended): the isSelf classification is true iff the event's editor
identity equals the local user's identity and that identity is present
(non-null and non-empty); with both identities absent the event is treated
as not-self. -/
theorem isSelfUpdate_true_iff (myEmail : Option String) (next : RoomRow) :
    isSelfUpdate myEmail next = true ↔
      (next.editor_email = myEmail ∧ truthy myEmail = true) := by
  simp only [isSelfUpdate, Bool.and_eq_true, beq_iff_eq]
  constructor
  · rintro ⟨⟨h1, _⟩, h3⟩
    exact ⟨h3, h1⟩
  · rintro ⟨heq, h1⟩
    exact ⟨⟨h1, by rw [heq]; exact h1⟩, heq⟩

/-- C2: an event the code classifies as a self-update never touches the
content buffer; it merges the row metadata and advances the watermark
exactly when the event's timestamp is newer than the current watermark. -/
theorem onRemoteUpdate_self_metadata_only (myEmail : Option String)
    (s : EditorState) (next : RoomRow)
    (h : isSelfUpdate myEmail next = true) :
    (onRemoteUpdate myEmail s next).content = s.content ∧
    (onRemoteUpdate myEmail s next).lastAppliedAt =
      (if isNewer next.updated_at s.lastAppliedAt then next.updated_at
       else s.lastAppliedAt) ∧
    (onRemoteUpdate myEmail s next).roomData = some next := by
  simp [onRemoteUpdate, h]

/-- C2 witness: a concrete self-echo with a newer timestamp leaves the
concrete live buffer untouched. -/
theorem onRemoteUpdate_self_metadata_only_witness :
    (onRemoteUpdate (some "me@x.com") stateWm rowSelfEcho).content =
      stateWm.content :=
  (onRemoteUpdate_self_metadata_only (some "me@x.com") stateWm rowSelfEcho
    rfl).1

/-- A non-self event whose timestamp parses to `v` is either applied in full
(when it beats the watermark) or discarded with the state unchanged. -/
theorem onRemoteUpdate_nonself (myEmail : Option String) (s : EditorState)
    (e : RoomRow) (v : Nat) (hself : isSelfUpdate myEmail e = false)
    (hv : tsClass e.updated_at = TSClass.val v) :
    onRemoteUpdate myEmail s e =
      (if beats v (tsClass s.lastAppliedAt) then
        { s with lastAppliedAt := e.updated_at, roomData := some e,
                 content := e.content.getD "" }
      else s) := by
  rw [onRemoteUpdate, hself, isNewer_eq_beats _ _ _ hv]
  by_cases hb : beats v (tsClass s.lastAppliedAt) = true
  · simp [hb]
  · rw [Bool.not_eq_true] at hb
    simp [hb]

/-- Folding events that each leave a state fixed leaves the fold at that
state. -/
theorem foldl_fix (myEmail : Option String) (s : EditorState)
    (t : List RoomRow) (h : ∀ e ∈ t, onRemoteUpdate myEmail s e = s) :
    t.foldl (onRemoteUpdate myEmail) s = s := by
  induction t with
  | nil => rfl
  | cons e t ih =>
    rw [List.foldl_cons, h e (List.mem_cons_self e t)]
    exact ih fun e' he' => h e' (List.mem_cons_of_mem e he')

/-- C1: for every finite sequence of remote (non-self) update events with
pairwise-distinct, validly parseable timestamps, delivered to OnRemoteUpdate
in any order, the final content buffer (and the final watermark) equal those
of the event with the maximum timestamp, provided that maximum is strictly
newer than the watermark held at subscription start. -/
theorem remote_updates_max_wins (myEmail : Option String) (emax : RoomRow)
    (vmax : Nat) (hvmax : tsClass emax.updated_at = TSClass.val vmax) :
    ∀ (l : List RoomRow) (s0 : EditorState),
      (∀ e ∈ l, isSelfUpdate myEmail e = false) →
      (∀ e ∈ l, ∃ v, tsClass e.updated_at = TSClass.val v) →
      l.Pairwise (fun e e' => tsClass e.updated_at ≠ tsClass e'.updated_at) →
      emax ∈ l →
      (∀ e ∈ l, ∀ v, tsClass e.updated_at = TSClass.val v → v ≤ vmax) →
      isNewer emax.updated_at s0.lastAppliedAt = true →
      (l.foldl (onRemoteUpdate myEmail) s0).content = emax.content.getD "" ∧
      (l.foldl (onRemoteUpdate myEmail) s0).lastAppliedAt = emax.updated_at := by
  intro l
  induction l with
  | nil => intro s0 _ _ _ hmem _ _; cases hmem
  | cons e t ih =>
    intro s0 hself hparse hdist hmem hmax hnew
    obtain ⟨ve, hve⟩ := hparse e (List.mem_cons_self e t)
    rw [List.foldl_cons]
    rcases List.mem_cons.mp hmem with rfl | hmemt
    · have hb : beats vmax (tsClass s0.lastAppliedAt) = true := by
        rw [← isNewer_eq_beats _ s0.lastAppliedAt _ hvmax]
        exact hnew
      have hfix : ∀ e' ∈ t,
          onRemoteUpdate myEmail
            { s0 with lastAppliedAt := emax.updated_at, roomData := some emax,
                      content := emax.content.getD "" } e' =
          { s0 with lastAppliedAt := emax.updated_at, roomData := some emax,
                    content := emax.content.getD "" } := by
        intro e' he'
        obtain ⟨v', hv'⟩ := hparse e' (List.mem_cons_of_mem emax he')
        rw [onRemoteUpdate_nonself myEmail _ e' v'
          (hself e' (List.mem_cons_of_mem emax he')) hv']
        have hle : v' ≤ vmax := hmax e' (List.mem_cons_of_mem emax he') v' hv'
        have hcl : tsClass
            ({ s0 with lastAppliedAt := emax.updated_at, roomData := some emax,
                       content := emax.content.getD "" } : EditorState).lastAppliedAt =
            TSClass.val vmax := hvmax
        rw [hcl]
        have hbf : beats v' (TSClass.val vmax) = false := by
          simp only [beats, decide_eq_false_iff_not]
          omega
        rw [hbf]
        simp
      rw [onRemoteUpdate_nonself myEmail s0 emax vmax
        (hself emax (List.mem_cons_self emax t)) hvmax]
      rw [if_pos hb, foldl_fix myEmail _ t hfix]
      exact ⟨rfl, rfl⟩
    · have hne : ve ≠ vmax := by
        have hd := (List.pairwise_cons.mp hdist).1 emax hmemt
        rw [hve, hvmax] at hd
        intro hEq
        exact hd (by rw [hEq])
      have hlt : ve < vmax :=
        lt_of_le_of_ne (hmax e (List.mem_cons_self e t) ve hve) hne
      rw [onRemoteUpdate_nonself myEmail s0 e ve
        (hself e (List.mem_cons_self e t)) hve]
      by_cases hb : beats ve (tsClass s0.lastAppliedAt) = true
      · rw [if_pos hb]
        refine ih _ (fun e' he' => hself e' (List.mem_cons_of_mem e he'))
          (fun e' he' => hparse e' (List.mem_cons_of_mem e he'))
          (List.pairwise_cons.mp hdist).2 hmemt
          (fun e' he' v hv => hmax e' (List.mem_cons_of_mem e he') v hv) ?_
        rw [isNewer_eq_beats _ _ _ hvmax]
        show beats vmax (tsClass e.updated_at) = true
        rw [hve]
        simp only [beats]
        exact decide_eq_true hlt
      · rw [if_neg hb]
        exact ih s0 (fun e' he' => hself e' (List.mem_cons_of_mem e he'))
          (fun e' he' => hparse e' (List.mem_cons_of_mem e he'))
          (List.pairwise_cons.mp hdist).2 hmemt
          (fun e' he' v hv => hmax e' (List.mem_cons_of_mem e he') v hv) hnew

/-- C1 witness: two concrete remote events delivered newest-first (out of
timestamp order); the buffer ends with the newest event's content. -/
theorem remote_updates_max_wins_witness :
    ([rowNew, rowOld].foldl (onRemoteUpdate none) state0).content =
      "newest text" :=
  ((remote_updates_max_wins none rowNew 63871372800000 (by decide)
      [rowNew, rowOld] state0
      (by decide)
      (by
        intro e he
        rcases List.mem_cons.mp he with rfl | he
        · exact ⟨63871372800000, by decide⟩
        · rcases List.mem_cons.mp he with rfl | he
          · exact ⟨63871286400000, by decide⟩
          · cases he)
      (by decide)
      (List.mem_cons_self _ _)
      (by
        intro e he v hv
        rcases List.mem_cons.mp he with rfl | he
        · rw [show tsClass rowNew.updated_at = TSClass.val 63871372800000 by
            decide] at hv
          injection hv with h
          omega
        · rcases List.mem_cons.mp he with rfl | he
          · rw [show tsClass rowOld.updated_at = TSClass.val 63871286400000 by
              decide] at hv
            injection hv with h
            omega
          · cases he)
      (by decide)).1).trans (by decide)

/-- One OnRemoteUpdate step never regresses: the watermark is unchanged or
strictly newer, and the content is unchanged unless the watermark strictly
advanced. -/
theorem onRemoteUpdate_step_no_regress (myEmail : Option String)
    (s : EditorState) (e : RoomRow) :
    ((onRemoteUpdate myEmail s e).lastAppliedAt = s.lastAppliedAt ∨
      isNewer (onRemoteUpdate myEmail s e).lastAppliedAt s.lastAppliedAt =
        true) ∧
    ((onRemoteUpdate myEmail s e).content = s.content ∨
      isNewer (onRemoteUpdate myEmail s e).lastAppliedAt s.lastAppliedAt =
        true) := by
  by_cases hs : isSelfUpdate myEmail e = true
  · by_cases hn : isNewer e.updated_at s.lastAppliedAt = true
    · simp [onRemoteUpdate, hs, hn]
    · simp [onRemoteUpdate, hs, hn]
  · by_cases hn : isNewer e.updated_at s.lastAppliedAt = true
    · simp [onRemoteUpdate, hs, hn]
    · simp [onRemoteUpdate, hs, hn]

/-- C4 counterexample: with the watermark at 2024-01-02, a Load returning a
record last written 2024-01-01 moves the watermark strictly backward (the
prior watermark is strictly newer than the new one), so the claim fails for
sequences containing Load. -/
theorem load_regresses_watermark_counterexample :
    isNewer stateWm.lastAppliedAt
      ((loadRoom (some user1) (LoadOutcome.found rowOld) true
        stateWm).1.lastAppliedAt) = true := by
  decide

/-- C4 (amended): across every sequence of OnRemoteUpdate operations the
editor state never regresses — at each step of the trace the watermark is
unchanged or strictly newer, and the content buffer changes only when the
watermark strictly advances.  Load and Save, by contrast, reset the
watermark to the loaded record's / just-written timestamp regardless of
its current value. -/
theorem onRemoteUpdate_trace_no_regress (myEmail : Option String)
    (s0 : EditorState) (l : List RoomRow) :
    List.Chain'
      (fun s s' =>
        (s'.lastAppliedAt = s.lastAppliedAt ∨
          isNewer s'.lastAppliedAt s.lastAppliedAt = true) ∧
        (s'.content = s.content ∨
          isNewer s'.lastAppliedAt s.lastAppliedAt = true))
      (l.scanl (onRemoteUpdate myEmail) s0) := by
  induction l generalizing s0 with
  | nil => simp
  | cons e t ih =>
    rw [List.scanl_cons]
    simp only [List.singleton_append]
    rw [List.chain'_cons']
    constructor
    · intro y hy
      have hhead :
          (t.scanl (onRemoteUpdate myEmail) (onRemoteUpdate myEmail s0 e)).head? =
            some (onRemoteUpdate myEmail s0 e) := by
        cases t <;> rfl
      rw [hhead, Option.mem_def, Option.some_inj] at hy
      subst hy
      exact onRemoteUpdate_step_no_regress myEmail s0 e
    · exact ih _

/-- C6: a successful Save advances the watermark to exactly the timestamp
written (which is also the timestamp of the write that reached the store),
leaves the buffer as it was, and the matching self-echo event (same editor
identity, same timestamp) then leaves the content buffer unchanged. -/
theorem save_then_echo_no_clobber (u : User) (roomCode : Option String)
    (nowIso : String) (s : EditorState) (echo : RoomRow)
    (hrc : truthy roomCode = true)
    (_he : echo.editor_email = u.email)
    (ht : echo.updated_at = some nowIso) :
    ((handleSave (some u) roomCode nowIso true s).1.lastAppliedAt =
      some nowIso) ∧
    ((handleSave (some u) roomCode nowIso true s).2.2 =
      some ⟨s.content, u.email, nowIso⟩) ∧
    ((onRemoteUpdate u.email (handleSave (some u) roomCode nowIso true s).1
        echo).content =
      (handleSave (some u) roomCode nowIso true s).1.content) ∧
    ((handleSave (some u) roomCode nowIso true s).1.content = s.content) := by
  have hsave : handleSave (some u) roomCode nowIso true s =
      ({ s with lastAppliedAt := some nowIso, isSaving := false },
       [⟨"Saved successfully", false⟩], some ⟨s.content, u.email, nowIso⟩) := by
    simp [handleSave, hrc]
  rw [hsave]
  refine ⟨rfl, rfl, ?_, rfl⟩
  by_cases hss : isSelfUpdate u.email echo = true
  · simp [onRemoteUpdate, hss]
  · have hn : isNewer echo.updated_at
        ({ s with lastAppliedAt := some nowIso, isSaving := false } :
          EditorState).lastAppliedAt = false := by
      rw [ht]
      exact isNewer_self (some nowIso)
    simp [onRemoteUpdate, hss, hn]

/-- C6 witness: a concrete successful Save at 2024-01-03 followed by its
concrete self-echo. -/
theorem save_then_echo_no_clobber_witness :
    (handleSave (some user1) (some "AB12CD") "2024-01-03T00:00:00Z" true
      stateWm).1.lastAppliedAt = some "2024-01-03T00:00:00Z" :=
  (save_then_echo_no_clobber user1 (some "AB12CD") "2024-01-03T00:00:00Z"
    stateWm rowSelfEcho rfl rfl rfl).1

/-- C7: a failed Save surfaces an error toast, writes nothing, and leaves
the content buffer, the watermark and the room row unchanged. -/
theorem handleSave_failure_preserves (u : User) (roomCode : Option String)
    (nowIso : String) (s : EditorState) (hrc : truthy roomCode = true) :
    ((handleSave (some u) roomCode nowIso false s).1.content = s.content) ∧
    ((handleSave (some u) roomCode nowIso false s).1.lastAppliedAt =
      s.lastAppliedAt) ∧
    ((handleSave (some u) roomCode nowIso false s).1.roomData = s.roomData) ∧
    ((handleSave (some u) roomCode nowIso false s).2.1 =
      [⟨"Save failed", true⟩]) ∧
    ((handleSave (some u) roomCode nowIso false s).2.2 = none) := by
  simp [handleSave, hrc]

/-- C7 witness: a concrete failed Save preserves the concrete buffer. -/
theorem handleSave_failure_preserves_witness :
    (handleSave (some user1) (some "AB12CD") "2024-01-03T00:00:00Z" false
      stateWm).1.content = stateWm.content :=
  (handleSave_failure_preserves user1 (some "AB12CD") "2024-01-03T00:00:00Z"
    stateWm rfl).1

/-- C8: a Load with no matching record toasts "Room not found" and
navigates to the dashboard (the model issues a single query, so there is no
retry); any other failure toasts a generic error and also navigates away;
and every outcome of a mounted Load clears the loading flag. -/
theorem loadRoom_contract (u : User) (s : EditorState) :
    (∀ outcome, ((loadRoom (some u) outcome true s).1).loading = false) ∧
    ((loadRoom (some u) LoadOutcome.notFound true s).2.1 =
      [⟨"Room not found", true⟩]) ∧
    ((loadRoom (some u) LoadOutcome.notFound true s).2.2 =
      some "/dashboard") ∧
    ((loadRoom (some u) LoadOutcome.failure true s).2.1 =
      [⟨"Error", true⟩]) ∧
    ((loadRoom (some u) LoadOutcome.failure true s).2.2 =
      some "/dashboard") := by
  refine ⟨?_, rfl, rfl, rfl, rfl⟩
  intro outcome
  cases outcome <;> simp [loadRoom]

/-- C9: OnRemoteUpdate is idempotent — delivering the same event a second
time (its timestamp no longer strictly newer than the watermark) changes
nothing — and a stale non-self event is silently discarded, leaving the
state exactly as it was. -/
theorem onRemoteUpdate_idempotent (myEmail : Option String)
    (s : EditorState) (e : RoomRow) :
    (onRemoteUpdate myEmail (onRemoteUpdate myEmail s e) e =
      onRemoteUpdate myEmail s e) ∧
    (isSelfUpdate myEmail e = false →
      isNewer e.updated_at s.lastAppliedAt = false →
      onRemoteUpdate myEmail s e = s) := by
  constructor
  · by_cases hs : isSelfUpdate myEmail e = true
    · by_cases hn : isNewer e.updated_at s.lastAppliedAt = true
      · simp [onRemoteUpdate, hs, hn, isNewer_self]
      · simp [onRemoteUpdate, hs, hn]
    · by_cases hn : isNewer e.updated_at s.lastAppliedAt = true
      · simp [onRemoteUpdate, hs, hn, isNewer_self]
      · simp [onRemoteUpdate, hs, hn]
  · intro h1 h2
    simp [onRemoteUpdate, h1, h2]

/-- C9 witness: a concrete stale event (2024-01-01 against a 2024-01-02
watermark) is discarded without any state change. -/
theorem onRemoteUpdate_idempotent_witness :
    onRemoteUpdate none stateWm rowOld = stateWm :=
  (onRemoteUpdate_idempotent none stateWm rowOld).2 (by decide) (by decide)

/-- C10: joining with a non-blank code navigates to the uppercase form of
the entered code, and every generated room code is a string of at most 6
characters drawn from the uppercase base-36 alphabet (decimal digits and
capital letters). -/
theorem join_uppercase_and_code_shape :
    (∀ jc : String, jsTrim jc ≠ "" →
      handleJoinRoom jc = some ("/room/" ++ jsToUpper jc)) ∧
    (∀ ds : List Nat, (∀ d ∈ ds, d < 36) →
      (generateRoomCode ds).length ≤ 6 ∧
      ∀ c ∈ generateRoomCode ds,
        (48 ≤ c.toNat ∧ c.toNat ≤ 57) ∨ (65 ≤ c.toNat ∧ c.toNat ≤ 90)) := by
  constructor
  · intro jc h
    simp [handleJoinRoom, truthy, h]
  · intro ds hds
    have hch : ∀ d, d < 36 →
        (48 ≤ (Char.toUpper (base36Char d)).toNat ∧
          (Char.toUpper (base36Char d)).toNat ≤ 57) ∨
        (65 ≤ (Char.toUpper (base36Char d)).toNat ∧
          (Char.toUpper (base36Char d)).toNat ≤ 90) := by
      decide
    cases ds with
    | nil =>
      constructor <;>
        simp [generateRoomCode, jsRandomBase36, jsSubstringTwoEight]
    | cons d ds' =>
      have hexp : generateRoomCode (d :: ds') =
          (((d :: ds').map base36Char).take 6).map Char.toUpper := by
        simp [generateRoomCode, jsRandomBase36, jsSubstringTwoEight]
      rw [hexp]
      constructor
      · simp only [List.length_map, List.length_take]
        exact min_le_left _ _
      · intro c hc
        rw [List.mem_map] at hc
        obtain ⟨ch, hch1, rfl⟩ := hc
        have hmem : ch ∈ (d :: ds').map base36Char :=
          List.take_subset _ _ hch1
        rw [List.mem_map] at hmem
        obtain ⟨dd, hdd, rfl⟩ := hmem
        exact hch dd (hds dd hdd)

/-- C10 witness: a concrete lowercase join code and a concrete digit list. -/
theorem join_uppercase_and_code_shape_witness :
    handleJoinRoom "abc123" = some "/room/ABC123" ∧
    (generateRoomCode [10, 35, 0, 1, 2, 3, 4]).length ≤ 6 :=
  ⟨(join_uppercase_and_code_shape.1 "abc123" (by decide)).trans (by decide),
   (join_uppercase_and_code_shape.2 [10, 35, 0, 1, 2, 3, 4] (by decide)).1⟩

end HasText

